import Mathlib

set_option maxRecDepth 8000

/-!
# Verification of `getlatest` (per-target scheduling and fetch pipeline)

Shallow embedding of the Go program `getlatest.go`.  Machine integers
(`time.Duration`, `int64` byte counts) are modelled as `Int` with explicit
saturation where the Go code saturates; time instants are absolute
nanoseconds since the Unix epoch plus a fixed local-zone offset; fallible
steps (template rendering, HTTP, filesystem calls) are modelled as explicit
outcome parameters threaded through the control flow of the source.
-/

/-- A Go `time.Time` instant: `ns` is the absolute time in nanoseconds since
the Unix epoch, `offset` the local zone offset in seconds east of UTC (Go's
`Format` and `Weekday` observe the local wall clock). -/
structure GoTime where
  ns : Int
  offset : Int
  deriving DecidableEq, Repr

/-- Largest `time.Duration` (`1<<63 - 1` nanoseconds). -/
def int64Max : Int := 9223372036854775807

/-- Smallest `time.Duration` (`-1<<63` nanoseconds). -/
def int64Min : Int := -9223372036854775808

/-- Go `t.Sub(u)`: the nanosecond difference, saturating at the `Duration`
bounds (Go returns `maxDuration`/`minDuration` when the true difference
overflows `int64`). -/
def goSub (t u : GoTime) : Int :=
  max int64Min (min int64Max (t.ns - u.ns))

/-- The zero `time.Time` (00:00:00 UTC, January 1, year 1): the value of a
never-set `lastSuccess` or `failSince` field.  `-62135596800` is that
instant's Unix time in seconds. -/
def goZeroTime : GoTime := ⟨-62135596800 * 1000000000, 0⟩

/-- Local wall-clock nanoseconds (absolute time shifted by the zone offset). -/
def GoTime.localNs (t : GoTime) : Int := t.ns + t.offset * 1000000000

/-- Go `t.Hour()`: hour of the local day, `0..23`. -/
def GoTime.hour (t : GoTime) : Int := (t.localNs.ediv 3600000000000).emod 24

/-- Go `t.Minute()`: minute of the local hour, `0..59`. -/
def GoTime.minute (t : GoTime) : Int := (t.localNs.ediv 60000000000).emod 60

/-- Go `t.Weekday()` as a number, `0 = Sunday .. 6 = Saturday`.  The Unix
epoch (day 0) was a Thursday, hence the `+ 4`. -/
def GoTime.weekday (t : GoTime) : Int :=
  (t.localNs.ediv 86400000000000 + 4).emod 7

/-- Decimal digit character. -/
def digitChar (n : Nat) : Char := Char.ofNat (48 + n)

/-- Two-digit zero-padded decimal rendering (for values `< 100`), as produced
by Go's `Format` verbs `15` and `04`. -/
def pad2 (n : Nat) : String := ⟨[digitChar (n / 10), digitChar (n % 10)]⟩

/-- Go `t.Format("15:04")`: the zero-padded 24-hour local time of day. -/
def format1504 (t : GoTime) : String :=
  pad2 t.hour.toNat ++ ":" ++ pad2 t.minute.toNat

/-- Go's three-letter weekday abbreviations, indexed as `GoTime.weekday`. -/
def weekdayAbbrev (d : Int) : String :=
  if d = 0 then "Sun" else if d = 1 then "Mon" else if d = 2 then "Tue"
  else if d = 3 then "Wed" else if d = 4 then "Thu" else if d = 5 then "Fri"
  else "Sat"

/-- Go `t.Format("Mon")`: the three-letter weekday abbreviation. -/
def GoTime.formatMon (t : GoTime) : String := weekdayAbbrev t.weekday

/-- Go `strings.ToLower` (ASCII case mapping, which covers every string the
program compares: weekday names and `HH:MM` times). -/
def goToLower (s : String) : String := ⟨s.data.map Char.toLower⟩

/-- Go `strings.TrimSpace` (ASCII whitespace). -/
def goTrimSpace (s : String) : String :=
  ⟨((s.data.dropWhile Char.isWhitespace).reverse.dropWhile
      Char.isWhitespace).reverse⟩

/-- Go `strings.Contains s sub`: `sub` occurs as a contiguous substring. -/
def goContains (s sub : String) : Bool := decide (sub.data <:+: s.data)

/-- Lexicographic order on character lists by code point, auxiliary to
`goLess`. -/
def listLtb : List Char → List Char → Bool
  | [], [] => false
  | [], _ :: _ => true
  | _ :: _, [] => false
  | a :: as, b :: bs =>
    if a.val < b.val then true
    else if b.val < a.val then false
    else listLtb as bs

/-- `strings.Compare a b < 0`: Go compares byte-wise, which on UTF-8 strings
is exactly lexicographic order by code point. -/
def goLess (a b : String) : Bool := listLtb a.data b.data

/-- The `getter` struct of getlatest.go: the YAML configuration fields
(`URL` .. `TTL`) plus the fields `setup` derives (`ttl` in nanoseconds,
`lastSuccess`, `failSince`).  The prometheus gauge is modelled separately as
an `Int` (the failing duration in nanoseconds; the code publishes this same
duration converted to seconds). -/
structure Getter where
  URL : String := ""
  Output : String := ""
  NotBefore : String := ""
  NotAfter : String := ""
  Weekdays : String := ""
  MinimumSize : Int := 0
  TTL : String := ""
  ttl : Int := 0
  lastSuccess : GoTime := goZeroTime
  failSince : GoTime := goZeroTime
  deriving DecidableEq, Repr

/-- `getter.should` (getlatest.go lines 180-195): the eligibility check.
`strings.Compare(a, b) < 0` is byte-wise comparison, i.e. `String` order on
these ASCII strings. -/
def Getter.should (g : Getter) (t : GoTime) : Bool :=
  if goSub t g.lastSuccess < g.ttl then false
  else
    let now := format1504 t
    if g.NotBefore != "" && goLess now g.NotBefore then false
    else if g.NotAfter != "" && goLess g.NotAfter now then false
    else if g.Weekdays != "" && !goContains g.Weekdays (" " ++ goToLower t.formatMon)
      then false
    else true

/-- The three window/weekday sub-checks of `should` (everything after the TTL
rule), each the negation of the corresponding early-`false` condition. -/
def Getter.windowOk (g : Getter) (t : GoTime) : Bool :=
  !(g.NotBefore != "" && goLess (format1504 t) g.NotBefore) &&
  !(g.NotAfter != "" && goLess g.NotAfter (format1504 t)) &&
  !(g.Weekdays != "" && !goContains g.Weekdays (" " ++ goToLower t.formatMon))

/-- The weekday sub-check of `should` in isolation. -/
def Getter.weekdayRule (g : Getter) (t : GoTime) : Bool :=
  !(g.Weekdays != "" && !goContains g.Weekdays (" " ++ goToLower t.formatMon))

/-- The `Weekdays` normalization in `setup` (getlatest.go lines 159-161):
trim, and if non-empty, lowercase and prepend a single space. -/
def normalizeWeekdays (w : String) : String :=
  let w := goTrimSpace w
  if w = "" then w else " " ++ goToLower w

/-- The result of `net/url.Parse` that `setup` inspects: only the scheme. -/
structure GoURL where
  scheme : String
  deriving DecidableEq, Repr

/-- Outcomes of the library calls `setup` makes, treated as oracles: template
parsing, the sample URL expansion, `url.Parse` of that sample, `os.Stat` of
the output path (its modification time when the file exists), and the two
parsers `time.Parse("15:04", ·)` (returning the re-`Format`ted `"HH:MM"`
string on success) and `time.ParseDuration` (returning nanoseconds). -/
structure SetupEnv where
  parseTemplate : Except String Unit
  renderSample : Except String String
  parseURL : Except String GoURL
  statModTime : Option GoTime
  parseHHMM : String → Option String
  parseDuration : String → Option Int

/-- The tail of `setup` from the `TTL` step on (getlatest.go lines 151-170):
an empty `TTL` silently defaults to one hour (`time.Hour` = 3.6e12 ns), a
non-empty one must parse; then `Weekdays` is normalized. -/
def Getter.setupTTL (g2 : Getter) (env : SetupEnv) : Except String Getter :=
  if g2.TTL = "" then
    .ok { g2 with ttl := 3600000000000, Weekdays := normalizeWeekdays g2.Weekdays }
  else
    match env.parseDuration g2.TTL with
    | none => .error (g2.Output ++ ": error parsing TTL value " ++ g2.TTL)
    | some d =>
      .ok { g2 with ttl := d, Weekdays := normalizeWeekdays g2.Weekdays }

/-- The tail of `setup` from the `NotAfter` step on (getlatest.go lines
146-170): `NotAfter` must be empty or parse as `"HH:MM"` (in which case it is
re-`Format`ted). -/
def Getter.setupRest (g1 : Getter) (env : SetupEnv) : Except String Getter :=
  match env.parseHHMM g1.NotAfter with
  | none =>
    if g1.NotAfter ≠ "" then
      .error (g1.Output ++ ": error parsing NotAfter value " ++ g1.NotAfter)
    else g1.setupTTL env
  | some v => Getter.setupTTL { g1 with NotAfter := v } env

/-- `getter.setup` (getlatest.go lines 124-171), with the library calls
supplied by `env`.  The final `failGaugeVec.GetMetricWithLabelValues` lookup
cannot fail (the vector is declared with exactly one label and is queried
with exactly one label value), so the gauge step is modelled as the
unconditional initialization to `0` that the code performs; the gauge value
itself lives outside this structure. -/
def Getter.setup (g : Getter) (env : SetupEnv) : Except String Getter :=
  match env.parseTemplate with
  | .error e => .error e
  | .ok () =>
  match env.renderSample with
  | .error e => .error e
  | .ok _urlstr =>
  match env.parseURL with
  | .error e => .error e
  | .ok u =>
  if u.scheme = "" then
    .error (g.Output ++ ": cannot use URL " ++ g.URL ++ " with no protocol scheme")
  else
  let g1 := match env.statModTime with
            | some mt => { g with lastSuccess := mt }
            | none => g
  match env.parseHHMM g1.NotBefore with
  | none =>
    if g1.NotBefore ≠ "" then
      .error (g.Output ++ ": error parsing NotBefore value " ++ g1.NotBefore)
    else g1.setupRest env
  | some v => Getter.setupRest { g1 with NotBefore := v } env

/-- Filesystem contents: a partial map from path to file bytes (bytes as
`Nat`s). -/
def FS : Type := String → Option (List Nat)

/-- Write (create or truncate-and-write) the file at `p`. -/
def fsWrite (fs : FS) (p : String) (v : List Nat) : FS :=
  fun q => if q = p then some v else fs q

/-- `os.Remove p` (no-op on an absent path, as the deferred cleanup relies
on). -/
def fsRemove (fs : FS) (p : String) : FS :=
  fun q => if q = p then none else fs q

/-- `os.Rename src dst`: one atomic step that installs `src`'s content at
`dst` and unlinks `src`. -/
def fsRename (fs : FS) (src dst : String) : FS :=
  fun q => if q = dst then fs src else if q = src then none else fs q

/-- An HTTP response as `trydownload` inspects it. -/
structure HttpResp where
  statusCode : Nat
  status : String
  body : List Nat
  deriving DecidableEq, Repr

/-- Outcome of `io.Copy` from the response body into the temp file: complete,
or an error after writing the first `k` bytes. -/
inductive CopyRes where
  | ok : CopyRes
  | fail (k : Nat) (err : String) : CopyRes
  deriving DecidableEq, Repr

/-- Outcomes of the fallible external calls one `trydownload` attempt makes,
in program order, plus `time.Now()` for the attempt. -/
structure FetchEnv where
  renderURL : Except String String
  tempName : Except String String
  httpGet : Except String HttpResp
  copyRes : CopyRes
  closeErr : Option String
  renameErr : Option String
  now : GoTime

/-- The errors `trydownload` returns, one constructor per `fmt.Errorf` site,
carrying the values that call formats. -/
inductive FetchErr where
  | urlErr (output err : String)
  | tempErr (output err : String)
  | getErr (output url err : String)
  | statusErr (output url : String) (code : Nat) (status : String)
  | copyErr (output url err : String)
  | tooSmall (output : String) (n min : Int)
  | closeErr (output err : String)
  | renameErr (output err : String)
  deriving DecidableEq, Repr

/-- Result of one `trydownload` attempt: the returned error (if any), the
filesystem after each mutation the attempt performed, in order (so the last
entry — or the initial filesystem, when the list is empty — is the state
after the attempt, deferred cleanup included), and the `lastSuccess` field
after the attempt. -/
structure TryResult where
  res : Except FetchErr Unit
  states : List FS
  lastSuccess : GoTime

/-- `getter.trydownload` (getlatest.go lines 214-253).  Control flow follows
the source: render the URL, create the temp file (dot-prefixed, in the output
directory), GET, require status 200, copy the body counting bytes, require
`n >= MinimumSize`, close, rename onto `Output`, set `lastSuccess`; the
deferred `os.Remove` of the temp path runs on every exit taken after its
creation (a no-op after a successful rename), and the deferred `f.Close()`
has no filesystem effect. -/
def Getter.trydownload (g : Getter) (env : FetchEnv) (fs0 : FS) : TryResult :=
  match env.renderURL with
  | .error e => ⟨.error (.urlErr g.Output e), [], g.lastSuccess⟩
  | .ok url =>
  match env.tempName with
  | .error e => ⟨.error (.tempErr g.Output e), [], g.lastSuccess⟩
  | .ok tmp =>
  let fs1 := fsWrite fs0 tmp []
  match env.httpGet with
  | .error e => ⟨.error (.getErr g.Output url e), [fs1, fsRemove fs1 tmp], g.lastSuccess⟩
  | .ok resp =>
  if resp.statusCode ≠ 200 then
    ⟨.error (.statusErr g.Output url resp.statusCode resp.status),
      [fs1, fsRemove fs1 tmp], g.lastSuccess⟩
  else
  match env.copyRes with
  | .fail k e =>
    let fs2 := fsWrite fs1 tmp (resp.body.take k)
    ⟨.error (.copyErr g.Output url e), [fs1, fs2, fsRemove fs2 tmp], g.lastSuccess⟩
  | .ok =>
  let fs2 := fsWrite fs1 tmp resp.body
  if (resp.body.length : Int) < g.MinimumSize then
    ⟨.error (.tooSmall g.Output resp.body.length g.MinimumSize),
      [fs1, fs2, fsRemove fs2 tmp], g.lastSuccess⟩
  else
  match env.closeErr with
  | some e => ⟨.error (.closeErr g.Output e), [fs1, fs2, fsRemove fs2 tmp], g.lastSuccess⟩
  | none =>
  match env.renameErr with
  | some e => ⟨.error (.renameErr g.Output e), [fs1, fs2, fsRemove fs2 tmp], g.lastSuccess⟩
  | none =>
    let fs3 := fsRename fs2 tmp g.Output
    ⟨.ok (), [fs1, fs2, fs3, fsRemove fs3 tmp], env.now⟩

/-- The filesystem after a `trydownload` attempt. -/
def Getter.finalFS (g : Getter) (env : FetchEnv) (fs0 : FS) : FS :=
  (g.trydownload env fs0).states.getLastD fs0

/-- The outcome-handling block of `getter.download` (getlatest.go lines
202-211): on failure, set `failSince` if it is unset and publish
`now - failSince`; on success, clear `failSince` and publish `0`.  The
returned `Int` is the gauge value in nanoseconds (the code publishes the same
duration converted to seconds). -/
def Getter.observe (g : Getter) (now : GoTime) (failed : Bool) : Getter × Int :=
  if failed then
    let since := if g.failSince = goZeroTime then now else g.failSince
    ({ g with failSince := since }, goSub now since)
  else
    ({ g with failSince := goZeroTime }, 0)

/-- State after one `download` tick: the getter (with `lastSuccess` and
`failSince` updated), the failure gauge, and the filesystem. -/
structure DownloadResult where
  g : Getter
  gauge : Int
  fs : FS

/-- `getter.download` (getlatest.go lines 197-212): do nothing unless
`should` holds at the tick time, otherwise run `trydownload` and feed the
outcome to the failure reporting block.  `gauge` is the gauge's value before
the tick (unchanged when `should` is false, since the code returns without
touching the gauge). -/
def Getter.download (g : Getter) (gauge : Int) (env : FetchEnv) (fs0 : FS) :
    DownloadResult :=
  if g.should env.now then
    let r := g.trydownload env fs0
    let g1 := { g with lastSuccess := r.lastSuccess }
    match r.res with
    | .error _ =>
      let p := g1.observe env.now true
      ⟨p.1, p.2, r.states.getLastD fs0⟩
    | .ok _ =>
      let p := g1.observe env.now false
      ⟨p.1, p.2, r.states.getLastD fs0⟩
  else ⟨g, gauge, fs0⟩

/-- A streak of consecutive failing attempts at the given tick times: the
getter state and published gauge value after each failing observation, each
step applying the failure branch of `download`'s reporting block
(`Getter.observe` with `failed = true`). -/
def observeSeq (g : Getter) (ts : List GoTime) : List (Getter × Int) :=
  match ts with
  | [] => []
  | t :: rest =>
    let p := g.observe t true
    p :: observeSeq p.1 rest

/-! ## Helper lemmas -/

theorem Getter.should_eq (g : Getter) (t : GoTime) :
    g.should t = (!decide (goSub t g.lastSuccess < g.ttl) && g.windowOk t) := by
  unfold Getter.should Getter.windowOk
  by_cases h1 : goSub t g.lastSuccess < g.ttl
  · simp [h1]
  · cases hb : (g.NotBefore != "" && goLess (format1504 t) g.NotBefore) <;>
      cases hc : (g.NotAfter != "" && goLess g.NotAfter (format1504 t)) <;>
        cases hd : (g.Weekdays != "" &&
            !goContains g.Weekdays (" " ++ goToLower t.formatMon)) <;>
          simp [h1, hb, hc, hd]

theorem goSub_lt_of_lt {t u : GoTime} {c : Int} (hc : int64Min < c)
    (h : t.ns - u.ns < c) : goSub t u < c := by
  unfold goSub
  have h1 : min int64Max (t.ns - u.ns) < c := lt_of_le_of_lt (min_le_right _ _) h
  exact max_lt hc h1

theorem le_goSub_of_le {t u : GoTime} {c : Int} (hc : c ≤ int64Max)
    (h : c ≤ t.ns - u.ns) : c ≤ goSub t u := by
  unfold goSub
  exact le_trans (le_min hc h) (le_max_right _ _)

theorem goSub_zeroTime_ge {t : GoTime} (ht : 0 ≤ t.ns) {c : Int}
    (hc : c ≤ int64Max) : c ≤ goSub t goZeroTime := by
  unfold goSub goZeroTime
  have h : int64Max ≤ min int64Max (t.ns - -62135596800 * 1000000000) := by
    refine le_min le_rfl ?_
    unfold int64Max
    omega
  exact le_trans hc (le_trans h (le_max_right _ _))

/-! ## Claim theorems -/

/-- C1: for a target with `ttl = T`, `should` returns false whenever
`now - lastSuccess < T`; holding the window/weekday checks satisfied it
returns true whenever `now - lastSuccess ≥ T`; and a zero (never-set)
`lastSuccess` behaves as infinitely long ago, so the TTL rule always passes
for such a target (at any time at or after the Unix epoch).  The bounds on
`ttl` say it is a Go `time.Duration`, i.e. an `int64` (and
`time.ParseDuration` cannot produce the most negative value). -/
theorem ttl_eligibility (g : Getter) (t : GoTime)
    (hlo : int64Min < g.ttl) (hhi : g.ttl ≤ int64Max) :
    (t.ns - g.lastSuccess.ns < g.ttl → g.should t = false) ∧
    (g.windowOk t = true → g.ttl ≤ t.ns - g.lastSuccess.ns → g.should t = true) ∧
    (g.lastSuccess = goZeroTime → 0 ≤ t.ns →
      g.ttl ≤ goSub t g.lastSuccess ∧ g.should t = g.windowOk t) := by
  refine ⟨?_, ?_, ?_⟩
  · intro h
    rw [Getter.should_eq]
    have := goSub_lt_of_lt hlo h
    simp [this]
  · intro hwin h
    rw [Getter.should_eq]
    have := le_goSub_of_le hhi h
    simp [hwin, not_lt.2 this]
  · intro hz ht
    rw [hz]
    have := goSub_zeroTime_ge ht hhi
    rw [Getter.should_eq, hz]
    simp [not_lt.2 this]
    exact this

/-- Witness for `ttl_eligibility` at a concrete target and time. -/
theorem ttl_eligibility_wit :
    (int64Min < (3600000000000 : Int) ∧ (3600000000000 : Int) ≤ int64Max) ∧
    (((7200000000000 : Int) - goZeroTime.ns < 3600000000000 →
        Getter.should { ttl := 3600000000000 } ⟨7200000000000, 0⟩ = false) ∧
      (Getter.windowOk { ttl := 3600000000000 } ⟨7200000000000, 0⟩ = true →
        (3600000000000 : Int) ≤ 7200000000000 - goZeroTime.ns →
        Getter.should { ttl := 3600000000000 } ⟨7200000000000, 0⟩ = true) ∧
      (Getter.lastSuccess { ttl := 3600000000000 } = goZeroTime →
        (0 : Int) ≤ 7200000000000 →
        (3600000000000 : Int) ≤
            goSub ⟨7200000000000, 0⟩ (Getter.lastSuccess { ttl := 3600000000000 }) ∧
          Getter.should { ttl := 3600000000000 } ⟨7200000000000, 0⟩ =
            Getter.windowOk { ttl := 3600000000000 } ⟨7200000000000, 0⟩)) :=
  ⟨⟨by decide, by decide⟩,
    ttl_eligibility { ttl := 3600000000000 } ⟨7200000000000, 0⟩ (by decide) (by decide)⟩

/-- 2019-08-28 04:00:00 -07:00, a Wednesday (Unix 1566990000), as in
`TestShouldAtTime`. -/
def wed0400 : GoTime := ⟨1566990000 * 1000000000, -25200⟩

/-- 2019-08-28 07:00:00 -07:00, a Wednesday (Unix 1567000800). -/
def wed0700 : GoTime := ⟨1567000800 * 1000000000, -25200⟩

/-- 2019-08-28 08:59:00 -07:00, a Wednesday (Unix 1567007940). -/
def wed0859 : GoTime := ⟨1567007940 * 1000000000, -25200⟩

/-- 2019-08-28 09:15:00 -07:00, a Wednesday (Unix 1567008900). -/
def wed0915 : GoTime := ⟨1567008900 * 1000000000, -25200⟩

/-- 2019-08-31 08:59:00 -07:00, a Saturday (Unix 1567267140). -/
def sat0859 : GoTime := ⟨1567267140 * 1000000000, -25200⟩

theorem Getter.should_of_ttl_ok {g : Getter} {t : GoTime}
    (h : ¬ goSub t g.lastSuccess < g.ttl) : g.should t = g.windowOk t := by
  rw [Getter.should_eq]
  simp [h]

/-- C2: for every target with `NotBefore = "07:00"`, `NotAfter = "09:00"`,
`Weekdays` configured as the working week (as `setup` normalizes it) and the
TTL rule satisfied at each instant, `should` is false at 04:00 Wednesday,
true at 07:00 and 08:59 Wednesday (both bounds inclusive), false at 09:15
Wednesday, and false at 08:59 Saturday. -/
theorem window_weekday_table (g : Getter)
    (hb : g.NotBefore = "07:00") (ha : g.NotAfter = "09:00")
    (hw : g.Weekdays = normalizeWeekdays "Mon Tue Wed Thu Fri")
    (h1 : ¬ goSub wed0400 g.lastSuccess < g.ttl)
    (h2 : ¬ goSub wed0700 g.lastSuccess < g.ttl)
    (h3 : ¬ goSub wed0859 g.lastSuccess < g.ttl)
    (h4 : ¬ goSub wed0915 g.lastSuccess < g.ttl)
    (h5 : ¬ goSub sat0859 g.lastSuccess < g.ttl) :
    g.should wed0400 = false ∧ g.should wed0700 = true ∧
    g.should wed0859 = true ∧ g.should wed0915 = false ∧
    g.should sat0859 = false := by
  refine ⟨?_, ?_, ?_, ?_, ?_⟩
  · rw [Getter.should_of_ttl_ok h1, Getter.windowOk, hb, ha, hw]; decide
  · rw [Getter.should_of_ttl_ok h2, Getter.windowOk, hb, ha, hw]; decide
  · rw [Getter.should_of_ttl_ok h3, Getter.windowOk, hb, ha, hw]; decide
  · rw [Getter.should_of_ttl_ok h4, Getter.windowOk, hb, ha, hw]; decide
  · rw [Getter.should_of_ttl_ok h5, Getter.windowOk, hb, ha, hw]; decide

/-- The concrete working-week target of `TestShouldAtTime`, after `setup`. -/
def beforework : Getter :=
  { URL := "http://host.example/foo", NotBefore := "07:00", NotAfter := "09:00",
    Weekdays := normalizeWeekdays "Mon Tue Wed Thu Fri", TTL := "1h",
    ttl := 3600000000000, lastSuccess := goZeroTime }

/-- Witness for `window_weekday_table` at the `TestShouldAtTime` target. -/
theorem window_weekday_table_wit :
    (beforework.NotBefore = "07:00" ∧ beforework.NotAfter = "09:00" ∧
      beforework.Weekdays = normalizeWeekdays "Mon Tue Wed Thu Fri" ∧
      ¬ goSub wed0400 beforework.lastSuccess < beforework.ttl ∧
      ¬ goSub wed0700 beforework.lastSuccess < beforework.ttl ∧
      ¬ goSub wed0859 beforework.lastSuccess < beforework.ttl ∧
      ¬ goSub wed0915 beforework.lastSuccess < beforework.ttl ∧
      ¬ goSub sat0859 beforework.lastSuccess < beforework.ttl) ∧
    (beforework.should wed0400 = false ∧ beforework.should wed0700 = true ∧
      beforework.should wed0859 = true ∧ beforework.should wed0915 = false ∧
      beforework.should sat0859 = false) :=
  ⟨⟨rfl, rfl, rfl, by decide, by decide, by decide, by decide, by decide⟩,
    window_weekday_table beforework rfl rfl rfl (by decide) (by decide)
      (by decide) (by decide) (by decide)⟩

/-- The lowercase three-letter weekday abbreviations, indexed as
`GoTime.weekday` (the spec's reading of the matching rule). -/
def weekdayAbbrevLower (d : Int) : String :=
  if d = 0 then "sun" else if d = 1 then "mon" else if d = 2 then "tue"
  else if d = 3 then "wed" else if d = 4 then "thu" else if d = 5 then "fri"
  else "sat"

theorem lower_abbrev (d : Int) :
    goToLower (weekdayAbbrev d) = weekdayAbbrevLower d := by
  unfold weekdayAbbrev weekdayAbbrevLower
  by_cases h0 : d = 0 <;> by_cases h1 : d = 1 <;> by_cases h2 : d = 2 <;>
    by_cases h3 : d = 3 <;> by_cases h4 : d = 4 <;> by_cases h5 : d = 5 <;>
      simp only [h0, h1, h2, h3, h4, h5, if_pos, if_neg, if_true, if_false,
        reduceIte] <;>
      decide

/-- 1970-01-05 00:00:00 UTC, a Monday (`weekday = 1`). -/
def mon0000 : GoTime := ⟨345600000000000, 0⟩

theorem space_append_ne (s : String) : (" " ++ s) ≠ "" := by
  intro h
  have hd : ' ' :: s.data = ([] : List Char) := congrArg String.data h
  exact List.cons_ne_nil ' ' s.data hd

/-- C9: for a target with a non-empty `Weekdays` setting (as `setup`
normalizes it), the weekday rule of `should` passes on the day of `t` exactly
when the lowercased, space-prefixed `Weekdays` string contains a space
followed by the lowercase three-letter abbreviation of that day as a
substring; consequently matching is case-insensitive and a listed word that
merely begins with the abbreviation (such as "Monday") also enables that
day. -/
theorem weekday_substring_semantics (raw : String) (g : Getter) (t : GoTime)
    (hw : g.Weekdays = normalizeWeekdays raw)
    (hne : goTrimSpace raw ≠ "") :
    (g.weekdayRule t = true ↔
      (" " ++ weekdayAbbrevLower t.weekday).data <:+:
        (" " ++ goToLower (goTrimSpace raw)).data) ∧
    Getter.weekdayRule { Weekdays := normalizeWeekdays "Monday" } mon0000 = true ∧
    Getter.weekdayRule { Weekdays := normalizeWeekdays "MON tue" } mon0000 = true ∧
    Getter.weekdayRule { Weekdays := normalizeWeekdays "mon tue" } mon0000 = true := by
  refine ⟨?_, by decide, by decide, by decide⟩
  have hnw : normalizeWeekdays raw = " " ++ goToLower (goTrimSpace raw) := by
    unfold normalizeWeekdays
    simp [hne]
  rw [Getter.weekdayRule, hw, hnw]
  have hW : ((" " ++ goToLower (goTrimSpace raw)) != "") = true := by
    simpa using space_append_ne (goToLower (goTrimSpace raw))
  rw [hW]
  have habb : goToLower t.formatMon = weekdayAbbrevLower t.weekday :=
    lower_abbrev t.weekday
  rw [GoTime.formatMon] at habb
  rw [GoTime.formatMon, habb, goContains]
  simp

/-- Witness for `weekday_substring_semantics` at a concrete configuration,
day and time. -/
theorem weekday_substring_semantics_wit :
    ((Getter.Weekdays { Weekdays := normalizeWeekdays "Mon Tue" } =
        normalizeWeekdays "Mon Tue") ∧
      goTrimSpace "Mon Tue" ≠ "") ∧
    ((Getter.weekdayRule { Weekdays := normalizeWeekdays "Mon Tue" } mon0000 = true ↔
        (" " ++ weekdayAbbrevLower mon0000.weekday).data <:+:
          (" " ++ goToLower (goTrimSpace "Mon Tue")).data) ∧
      Getter.weekdayRule { Weekdays := normalizeWeekdays "Monday" } mon0000 = true ∧
      Getter.weekdayRule { Weekdays := normalizeWeekdays "MON tue" } mon0000 = true ∧
      Getter.weekdayRule { Weekdays := normalizeWeekdays "mon tue" } mon0000 = true) :=
  ⟨⟨rfl, by decide⟩,
    weekday_substring_semantics "Mon Tue"
      { Weekdays := normalizeWeekdays "Mon Tue" } mon0000 rfl (by decide)⟩

theorem Getter.setupTTL_error_iff (g2 : Getter) (env : SetupEnv) :
    (∃ e, g2.setupTTL env = .error e) ↔
      (g2.TTL ≠ "" ∧ env.parseDuration g2.TTL = none) := by
  unfold Getter.setupTTL
  by_cases h : g2.TTL = ""
  · simp [h]
  · rcases hd : env.parseDuration g2.TTL with _ | d
    · simp [h, hd]
    · simp [h, hd]

theorem Getter.setupRest_error_iff (g1 : Getter) (env : SetupEnv) :
    (∃ e, g1.setupRest env = .error e) ↔
      ((g1.NotAfter ≠ "" ∧ env.parseHHMM g1.NotAfter = none) ∨
        (g1.TTL ≠ "" ∧ env.parseDuration g1.TTL = none)) := by
  unfold Getter.setupRest
  rcases hna : env.parseHHMM g1.NotAfter with _ | v
  · by_cases h : g1.NotAfter = ""
    · simp [h, hna, Getter.setupTTL_error_iff]
    · simp [h, hna]
  · simp [hna, Getter.setupTTL_error_iff]

/-- C7: `setup` fails exactly when the URL template fails to parse, the
sample expansion of the template fails, the expanded URL does not parse or
has an empty scheme, `NotBefore` or `NotAfter` is non-empty and does not
parse as an `"HH:MM"` time of day, or `TTL` is non-empty and does not parse
as a duration — all surfaced at target initialization (`main` runs `setup`
on every target, and aborts on error, before starting any fetch loop). -/
theorem setup_error_iff (g : Getter) (env : SetupEnv) :
    (∃ e, g.setup env = .error e) ↔
      ((∃ e, env.parseTemplate = .error e) ∨
        (∃ e, env.renderSample = .error e) ∨
        (∃ e, env.parseURL = .error e) ∨
        (∃ u, env.parseURL = .ok u ∧ u.scheme = "") ∨
        (g.NotBefore ≠ "" ∧ env.parseHHMM g.NotBefore = none) ∨
        (g.NotAfter ≠ "" ∧ env.parseHHMM g.NotAfter = none) ∨
        (g.TTL ≠ "" ∧ env.parseDuration g.TTL = none)) := by
  unfold Getter.setup
  rcases hpt : env.parseTemplate with e | u0
  · simp [hpt]
  · rcases hrs : env.renderSample with e | us
    · simp [hpt, hrs]
    · rcases hpu : env.parseURL with e | u
      · simp [hpt, hrs, hpu]
      · by_cases hs : u.scheme = ""
        · simp [hpt, hrs, hpu, hs]
        · rcases hsm : env.statModTime with _ | mt <;>
          · rcases hnb : env.parseHHMM g.NotBefore with _ | v
            · simp only [hsm, hnb]
              by_cases hb : g.NotBefore = ""
              · simp [hb, hnb, hpt, hrs, hpu, hs,
                  Getter.setupRest_error_iff]
              · simp [hb, hnb, hpt, hrs, hpu, hs]
            · simp only [hsm, hnb]
              simp [hnb, hpt, hrs, hpu, hs, Getter.setupRest_error_iff]

/-- C10: an empty `TTL` configuration string is not a configuration error:
provided the other fields are well-formed, `setup` succeeds and silently
assigns the default `ttl` of one hour (`time.Hour` = 3600000000000 ns). -/
theorem empty_ttl_default (g : Getter) (env : SetupEnv)
    (hTTL : g.TTL = "")
    (hpt : env.parseTemplate = .ok ())
    (hrs : ∃ s, env.renderSample = .ok s)
    (hpu : ∃ u, env.parseURL = .ok u ∧ u.scheme ≠ "")
    (hnb : g.NotBefore = "" ∨ ∃ v, env.parseHHMM g.NotBefore = some v)
    (hna : g.NotAfter = "" ∨ ∃ v, env.parseHHMM g.NotAfter = some v) :
    ∃ g2, g.setup env = .ok g2 ∧ g2.ttl = 3600000000000 := by
  obtain ⟨us, hrs⟩ := hrs
  obtain ⟨u, hpu, hsch⟩ := hpu
  have hTTLok : ∀ g2 : Getter, g2.TTL = "" →
      ∃ g3, g2.setupTTL env = .ok g3 ∧ g3.ttl = 3600000000000 := by
    intro g2 h
    unfold Getter.setupTTL
    rw [if_pos h]
    exact ⟨_, rfl, rfl⟩
  have hrest : ∀ g1 : Getter, g1.NotAfter = g.NotAfter → g1.TTL = "" →
      ∃ g2, g1.setupRest env = .ok g2 ∧ g2.ttl = 3600000000000 := by
    intro g1 hna1 httl1
    unfold Getter.setupRest
    rcases hnap : env.parseHHMM g1.NotAfter with _ | v
    · dsimp only
      rcases hna with hna | ⟨v, hna⟩
      · have hcond : ¬ (g1.NotAfter ≠ "") := fun hcc => hcc (hna1.trans hna)
        rw [if_neg hcond]
        exact hTTLok g1 httl1
      · rw [hna1] at hnap
        rw [hnap] at hna
        simp at hna
    · dsimp only
      exact hTTLok _ httl1
  unfold Getter.setup
  rw [hpt, hrs, hpu]
  dsimp only
  rw [if_neg hsch]
  rcases hsm : env.statModTime with _ | mt <;>
  · dsimp only
    rcases hnbp : env.parseHHMM g.NotBefore with _ | v
    · dsimp only
      rcases hnb with hnb | ⟨v, hnb⟩
      · have hcond : ¬ (g.NotBefore ≠ "") := fun hcc => hcc hnb
        rw [if_neg hcond]
        exact hrest _ rfl hTTL
      · rw [hnbp] at hnb
        simp at hnb
    · dsimp only
      exact hrest _ rfl hTTL

/-- A well-formed setup environment: template parses, sample renders, URL has
a scheme, no pre-existing output file, and neither parser accepts anything
(nothing non-empty needs parsing in the witness). -/
def setupEnvOk : SetupEnv :=
  { parseTemplate := .ok (), renderSample := .ok "http://host.example/foo",
    parseURL := .ok ⟨"http"⟩, statModTime := none,
    parseHHMM := fun _ => none, parseDuration := fun _ => none }

/-- Witness for `empty_ttl_default` at a default-configured target. -/
theorem empty_ttl_default_wit :
    (Getter.TTL {} = "" ∧ setupEnvOk.parseTemplate = .ok () ∧
      (∃ s, setupEnvOk.renderSample = .ok s) ∧
      (∃ u, setupEnvOk.parseURL = .ok u ∧ u.scheme ≠ "") ∧
      (Getter.NotBefore {} = "" ∨ ∃ v, setupEnvOk.parseHHMM (Getter.NotBefore {}) = some v) ∧
      (Getter.NotAfter {} = "" ∨ ∃ v, setupEnvOk.parseHHMM (Getter.NotAfter {}) = some v)) ∧
    (∃ g2, Getter.setup {} setupEnvOk = .ok g2 ∧ g2.ttl = 3600000000000) :=
  ⟨⟨rfl, rfl, ⟨_, rfl⟩, ⟨⟨"http"⟩, rfl, by decide⟩, Or.inl rfl, Or.inl rfl⟩,
    empty_ttl_default {} setupEnvOk rfl rfl ⟨_, rfl⟩ ⟨⟨"http"⟩, rfl, by decide⟩
      (Or.inl rfl) (Or.inl rfl)⟩

/-- C3: a fetch attempt that returns an error at any stage — URL render
failure, temp-file creation failure, HTTP error, non-200 status, body-write
failure, body smaller than `MinimumSize`, close failure, or rename failure —
leaves the content of `Output` exactly as it was before the attempt and does
not change `lastSuccess`.  (The temp-file hypothesis records that
`ioutil.TempFile` returns a fresh dot-prefixed name, never the output path
itself.) -/
theorem fetch_failure_preserves_output (g : Getter) (env : FetchEnv) (fs0 : FS)
    (e : FetchErr)
    (htmp : ∀ s, env.tempName = .ok s → s ≠ g.Output)
    (herr : (g.trydownload env fs0).res = .error e) :
    g.finalFS env fs0 g.Output = fs0 g.Output ∧
    (g.trydownload env fs0).lastSuccess = g.lastSuccess := by
  rcases hru : env.renderURL with eu | url
  · simp [Getter.finalFS, Getter.trydownload, hru]
  · rcases htn : env.tempName with et | tmp
    · simp [Getter.finalFS, Getter.trydownload, hru, htn]
    · have hO : ¬ (g.Output = tmp) := fun h => htmp tmp htn h.symm
      rcases hhg : env.httpGet with eg | resp
      · simp [Getter.finalFS, Getter.trydownload, hru, htn, hhg,
          List.getLastD, fsRemove, fsWrite, hO]
      · by_cases hst : resp.statusCode = 200
        · rcases hcp : env.copyRes with _ | ⟨k, ec⟩
          · by_cases hsz : (resp.body.length : Int) < g.MinimumSize
            · simp [Getter.finalFS, Getter.trydownload, hru, htn, hhg, hst,
                hcp, hsz, List.getLastD, fsRemove, fsWrite, hO]
            · rcases hcl : env.closeErr with _ | ecl
              · rcases hrn : env.renameErr with _ | ern
                · exfalso
                  simp [Getter.trydownload, hru, htn, hhg, hst, hcp, hsz,
                    hcl, hrn] at herr
                · simp [Getter.finalFS, Getter.trydownload, hru, htn, hhg,
                    hst, hcp, hsz, hcl, hrn, List.getLastD, fsRemove,
                    fsWrite, hO]
              · simp [Getter.finalFS, Getter.trydownload, hru, htn, hhg,
                  hst, hcp, hsz, hcl, List.getLastD, fsRemove, fsWrite, hO]
          · simp [Getter.finalFS, Getter.trydownload, hru, htn, hhg, hst,
              hcp, List.getLastD, fsRemove, fsWrite, hO]
        · simp [Getter.finalFS, Getter.trydownload, hru, htn, hhg, hst,
            List.getLastD, fsRemove, fsWrite, hO]

/-- The empty filesystem. -/
def fsEmpty : FS := fun _ => none

/-- A concrete target for pipeline witnesses. -/
def gOut : Getter := { Output := "/tmp/out", MinimumSize := 100 }

/-- A concrete attempt whose GET returns a 503. -/
def envFail : FetchEnv :=
  { renderURL := .ok "http://host.example/foo", tempName := .ok ".out.1",
    httpGet := .ok ⟨503, "503 Service Unavailable", []⟩, copyRes := .ok,
    closeErr := none, renameErr := none, now := ⟨0, 0⟩ }

/-- Witness for `fetch_failure_preserves_output` at a concrete 503 attempt. -/
theorem fetch_failure_preserves_output_wit :
    ((∀ s, envFail.tempName = .ok s → s ≠ gOut.Output) ∧
      (gOut.trydownload envFail fsEmpty).res =
        .error (.statusErr "/tmp/out" "http://host.example/foo" 503
          "503 Service Unavailable")) ∧
    (gOut.finalFS envFail fsEmpty gOut.Output = fsEmpty gOut.Output ∧
      (gOut.trydownload envFail fsEmpty).lastSuccess = gOut.lastSuccess) :=
  ⟨⟨fun s h => by injection h with h2; rw [← h2]; decide, rfl⟩,
    fetch_failure_preserves_output gOut envFail fsEmpty _
      (fun s h => by injection h with h2; rw [← h2]; decide) rfl⟩

/-- C6: when the GET completes with any status other than 200, `trydownload`
returns the error carrying the numeric status code and the status text, no
bytes are ever present in the temporary file (it holds the empty content
until the deferred cleanup removes it), `Output` is unchanged, and the
enclosing `download` applies exactly the same failure-reporting update as for
any other per-attempt failure. -/
theorem non_ok_status_error (g : Getter) (gauge : Int) (env : FetchEnv)
    (fs0 : FS) (url tmp : String) (resp : HttpResp)
    (h1 : env.renderURL = .ok url) (h2 : env.tempName = .ok tmp)
    (h3 : tmp ≠ g.Output) (h4 : env.httpGet = .ok resp)
    (h5 : resp.statusCode ≠ 200) :
    (g.trydownload env fs0).res =
      .error (.statusErr g.Output url resp.statusCode resp.status) ∧
    (∀ s ∈ (g.trydownload env fs0).states, s tmp = some [] ∨ s tmp = none) ∧
    g.finalFS env fs0 g.Output = fs0 g.Output ∧
    (g.should env.now = true →
      (g.download gauge env fs0).g.failSince = (g.observe env.now true).1.failSince ∧
      (g.download gauge env fs0).gauge = (g.observe env.now true).2) := by
  have hO : ¬ (g.Output = tmp) := fun h => h3 h.symm
  have htd : g.trydownload env fs0 =
      ⟨.error (.statusErr g.Output url resp.statusCode resp.status),
        [fsWrite fs0 tmp [], fsRemove (fsWrite fs0 tmp []) tmp],
        g.lastSuccess⟩ := by
    simp [Getter.trydownload, h1, h2, h4, h5]
  refine ⟨by rw [htd], ?_, ?_, ?_⟩
  · rw [htd]
    intro s hs
    simp only [List.mem_cons, List.not_mem_nil, or_false] at hs
    rcases hs with hs | hs
    · left; rw [hs]; simp [fsWrite]
    · right; rw [hs]; simp [fsRemove]
  · unfold Getter.finalFS
    rw [htd]
    simp [List.getLastD, fsRemove, fsWrite, hO]
  · intro hsh
    simp [Getter.download, hsh, htd]

/-- Witness for `non_ok_status_error` at a concrete 503 attempt. -/
theorem non_ok_status_error_wit :
    (envFail.renderURL = .ok "http://host.example/foo" ∧
      envFail.tempName = .ok ".out.1" ∧ (".out.1" : String) ≠ gOut.Output ∧
      envFail.httpGet = .ok ⟨503, "503 Service Unavailable", []⟩ ∧
      (503 : Nat) ≠ 200) ∧
    ((gOut.trydownload envFail fsEmpty).res =
        .error (.statusErr gOut.Output "http://host.example/foo" 503
          "503 Service Unavailable") ∧
      (∀ s ∈ (gOut.trydownload envFail fsEmpty).states,
        s ".out.1" = some [] ∨ s ".out.1" = none) ∧
      gOut.finalFS envFail fsEmpty gOut.Output = fsEmpty gOut.Output ∧
      (gOut.should envFail.now = true →
        (gOut.download 0 envFail fsEmpty).g.failSince =
          (gOut.observe envFail.now true).1.failSince ∧
        (gOut.download 0 envFail fsEmpty).gauge =
          (gOut.observe envFail.now true).2)) :=
  ⟨⟨rfl, rfl, by decide, rfl, by decide⟩,
    non_ok_status_error gOut 0 envFail fsEmpty "http://host.example/foo"
      ".out.1" ⟨503, "503 Service Unavailable", []⟩ rfl rfl (by decide) rfl
      (by decide)⟩

/-- C4: when the URL renders, the GET returns status 200 with a body of at
least `MinimumSize` bytes, and every filesystem operation succeeds,
`trydownload` returns nil, `Output` afterwards contains exactly the body
bytes (installed by renaming the temp file onto it), `lastSuccess` becomes
the current time, and the enclosing `download` clears `failSince` and sets
the failure gauge to zero. -/
theorem fetch_success_installs (g : Getter) (gauge : Int) (env : FetchEnv)
    (fs0 : FS) (url tmp : String) (resp : HttpResp)
    (h1 : env.renderURL = .ok url) (h2 : env.tempName = .ok tmp)
    (h3 : tmp ≠ g.Output) (h4 : env.httpGet = .ok resp)
    (h5 : resp.statusCode = 200) (h6 : env.copyRes = .ok)
    (h7 : g.MinimumSize ≤ (resp.body.length : Int))
    (h8 : env.closeErr = none) (h9 : env.renameErr = none)
    (h10 : g.should env.now = true) :
    (g.trydownload env fs0).res = .ok () ∧
    (g.download gauge env fs0).fs g.Output = some resp.body ∧
    (g.download gauge env fs0).g.lastSuccess = env.now ∧
    (g.download gauge env fs0).g.failSince = goZeroTime ∧
    (g.download gauge env fs0).gauge = 0 := by
  have hO : ¬ (g.Output = tmp) := fun h => h3 h.symm
  have hsz : ¬ ((resp.body.length : Int) < g.MinimumSize) := not_lt.2 h7
  have htd : g.trydownload env fs0 =
      ⟨.ok (),
        [fsWrite fs0 tmp [], fsWrite (fsWrite fs0 tmp []) tmp resp.body,
          fsRename (fsWrite (fsWrite fs0 tmp []) tmp resp.body) tmp g.Output,
          fsRemove
            (fsRename (fsWrite (fsWrite fs0 tmp []) tmp resp.body) tmp g.Output)
            tmp],
        env.now⟩ := by
    simp [Getter.trydownload, h1, h2, h4, h5, h6, hsz, h8, h9]
  refine ⟨by rw [htd], ?_, ?_, ?_, ?_⟩
  · simp [Getter.download, h10, htd, List.getLastD, fsRemove, fsRename,
      fsWrite, hO]
  · simp [Getter.download, h10, htd, Getter.observe]
  · simp [Getter.download, h10, htd, Getter.observe]
  · simp [Getter.download, h10, htd, Getter.observe]

/-- A 150-byte response body. -/
def body150 : List Nat := List.replicate 150 7

/-- A concrete attempt that succeeds with 150 body bytes. -/
def envOkDl : FetchEnv :=
  { renderURL := .ok "http://host.example/foo", tempName := .ok ".out.1",
    httpGet := .ok ⟨200, "200 OK", body150⟩, copyRes := .ok,
    closeErr := none, renameErr := none, now := ⟨7200000000000, 0⟩ }

/-- Witness for `fetch_success_installs` at a concrete 150-byte download. -/
theorem fetch_success_installs_wit :
    (envOkDl.renderURL = .ok "http://host.example/foo" ∧
      envOkDl.tempName = .ok ".out.1" ∧ (".out.1" : String) ≠ gOut.Output ∧
      envOkDl.httpGet = .ok ⟨200, "200 OK", body150⟩ ∧
      (200 : Nat) = 200 ∧ envOkDl.copyRes = .ok ∧
      gOut.MinimumSize ≤ (body150.length : Int) ∧
      envOkDl.closeErr = none ∧ envOkDl.renameErr = none ∧
      gOut.should envOkDl.now = true) ∧
    ((gOut.trydownload envOkDl fsEmpty).res = .ok () ∧
      (gOut.download 0 envOkDl fsEmpty).fs gOut.Output = some body150 ∧
      (gOut.download 0 envOkDl fsEmpty).g.lastSuccess = envOkDl.now ∧
      (gOut.download 0 envOkDl fsEmpty).g.failSince = goZeroTime ∧
      (gOut.download 0 envOkDl fsEmpty).gauge = 0) :=
  ⟨⟨rfl, rfl, by decide, rfl, rfl, rfl, by decide, rfl, rfl, by decide⟩,
    fetch_success_installs gOut 0 envOkDl fsEmpty "http://host.example/foo"
      ".out.1" ⟨200, "200 OK", body150⟩ rfl rfl (by decide) rfl rfl rfl
      (by decide) rfl rfl (by decide)⟩

/-- C8: at every point during a fetch attempt (after each filesystem
mutation the attempt performs), `Output` holds either exactly its initial
content (absent if it was never installed) or the complete new body of at
least `MinimumSize` bytes — never a partial or truncated result — because
the only write to `Output` is the single rename of the fully written,
size-validated temp file.  The hypothesis on `fs0` says any pre-existing
output content is a complete previously-installed result. -/
theorem output_never_partial (g : Getter) (env : FetchEnv) (fs0 : FS)
    (htmp : ∀ s, env.tempName = .ok s → s ≠ g.Output)
    (h0 : ∀ v, fs0 g.Output = some v → g.MinimumSize ≤ (v.length : Int)) :
    ∀ s ∈ (g.trydownload env fs0).states,
      (s g.Output = fs0 g.Output ∨
        ∃ resp, env.httpGet = .ok resp ∧ s g.Output = some resp.body ∧
          g.MinimumSize ≤ (resp.body.length : Int)) ∧
      ∀ v, s g.Output = some v → g.MinimumSize ≤ (v.length : Int) := by
  have hfs0 : ∀ s : FS, s g.Output = fs0 g.Output →
      ((s g.Output = fs0 g.Output ∨
          ∃ resp, env.httpGet = .ok resp ∧ s g.Output = some resp.body ∧
            g.MinimumSize ≤ (resp.body.length : Int)) ∧
        ∀ v, s g.Output = some v → g.MinimumSize ≤ (v.length : Int)) :=
    fun s h => ⟨Or.inl h, fun v hv => h0 v (h.symm.trans hv)⟩
  rcases hru : env.renderURL with eu | url
  · simp [Getter.trydownload, hru]
  · rcases htn : env.tempName with et | tmp
    · simp [Getter.trydownload, hru, htn]
    · have hO : ¬ (g.Output = tmp) := fun h => htmp tmp htn h.symm
      have hw1 : ∀ c : List Nat, fsWrite fs0 tmp c g.Output = fs0 g.Output :=
        fun _ => if_neg hO
      have hw2 : ∀ c c' : List Nat,
          fsWrite (fsWrite fs0 tmp c) tmp c' g.Output = fs0 g.Output :=
        fun c _ => (if_neg hO).trans (hw1 c)
      have herr3 : ∀ c : List Nat, ∀ s : FS,
          s ∈ [fsWrite fs0 tmp [], fsWrite (fsWrite fs0 tmp []) tmp c,
            fsRemove (fsWrite (fsWrite fs0 tmp []) tmp c) tmp] →
          s g.Output = fs0 g.Output := by
        intro c s hs
        simp only [List.mem_cons, List.not_mem_nil, or_false] at hs
        rcases hs with h | h | h <;> rw [h]
        · exact hw1 []
        · exact hw2 [] c
        · exact (if_neg hO).trans (hw2 [] c)
      rcases hhg : env.httpGet with eg | resp
      · rw [hhg] at hfs0
        have htd : (g.trydownload env fs0).states =
            [fsWrite fs0 tmp [], fsRemove (fsWrite fs0 tmp []) tmp] := by
          simp [Getter.trydownload, hru, htn, hhg]
        rw [htd]
        intro s hs
        simp only [List.mem_cons, List.not_mem_nil, or_false] at hs
        refine hfs0 s ?_
        rcases hs with h | h <;> rw [h]
        · exact hw1 []
        · exact (if_neg hO).trans (hw1 [])
      · rw [hhg] at hfs0
        by_cases hst : resp.statusCode = 200
        · rcases hcp : env.copyRes with _ | ⟨k, ec⟩
          · by_cases hsz : (resp.body.length : Int) < g.MinimumSize
            · have htd : (g.trydownload env fs0).states =
                  [fsWrite fs0 tmp [],
                    fsWrite (fsWrite fs0 tmp []) tmp resp.body,
                    fsRemove (fsWrite (fsWrite fs0 tmp []) tmp resp.body) tmp] := by
                simp [Getter.trydownload, hru, htn, hhg, hst, hcp, hsz]
              rw [htd]
              exact fun s hs => hfs0 s (herr3 resp.body s hs)
            · rcases hcl : env.closeErr with _ | ecl
              · rcases hrn : env.renameErr with _ | ern
                · have htd : (g.trydownload env fs0).states =
                      [fsWrite fs0 tmp [],
                        fsWrite (fsWrite fs0 tmp []) tmp resp.body,
                        fsRename (fsWrite (fsWrite fs0 tmp []) tmp resp.body)
                          tmp g.Output,
                        fsRemove
                          (fsRename
                            (fsWrite (fsWrite fs0 tmp []) tmp resp.body)
                            tmp g.Output) tmp] := by
                    simp [Getter.trydownload, hru, htn, hhg, hst, hcp, hsz,
                      hcl, hrn]
                  rw [htd]
                  intro s hs
                  simp only [List.mem_cons, List.not_mem_nil, or_false] at hs
                  have hnew :
                      fsRename (fsWrite (fsWrite fs0 tmp []) tmp resp.body)
                        tmp g.Output g.Output = some resp.body := by
                    simp [fsRename, fsWrite]
                  have hszge : g.MinimumSize ≤ (resp.body.length : Int) :=
                    not_lt.1 hsz
                  rcases hs with h | h | h | h
                  · exact hfs0 s (h ▸ hw1 [])
                  · exact hfs0 s (h ▸ hw2 [] resp.body)
                  · refine ⟨Or.inr ⟨resp, rfl, ?_, hszge⟩, ?_⟩
                    · rw [h]; exact hnew
                    · intro v hv
                      rw [h, hnew] at hv
                      cases hv
                      exact hszge
                  · have hlast : s g.Output = some resp.body := by
                      rw [h]
                      exact (if_neg hO).trans hnew
                    refine ⟨Or.inr ⟨resp, rfl, hlast, hszge⟩, ?_⟩
                    intro v hv
                    rw [hlast] at hv
                    cases hv
                    exact hszge
                · have htd : (g.trydownload env fs0).states =
                      [fsWrite fs0 tmp [],
                        fsWrite (fsWrite fs0 tmp []) tmp resp.body,
                        fsRemove (fsWrite (fsWrite fs0 tmp []) tmp resp.body)
                          tmp] := by
                    simp [Getter.trydownload, hru, htn, hhg, hst, hcp, hsz,
                      hcl, hrn]
                  rw [htd]
                  exact fun s hs => hfs0 s (herr3 resp.body s hs)
              · have htd : (g.trydownload env fs0).states =
                    [fsWrite fs0 tmp [],
                      fsWrite (fsWrite fs0 tmp []) tmp resp.body,
                      fsRemove (fsWrite (fsWrite fs0 tmp []) tmp resp.body)
                        tmp] := by
                  simp [Getter.trydownload, hru, htn, hhg, hst, hcp, hsz, hcl]
                rw [htd]
                exact fun s hs => hfs0 s (herr3 resp.body s hs)
          · have htd : (g.trydownload env fs0).states =
                [fsWrite fs0 tmp [],
                  fsWrite (fsWrite fs0 tmp []) tmp (resp.body.take k),
                  fsRemove
                    (fsWrite (fsWrite fs0 tmp []) tmp (resp.body.take k))
                    tmp] := by
              simp [Getter.trydownload, hru, htn, hhg, hst, hcp]
            rw [htd]
            exact fun s hs => hfs0 s (herr3 (resp.body.take k) s hs)
        · have htd : (g.trydownload env fs0).states =
              [fsWrite fs0 tmp [], fsRemove (fsWrite fs0 tmp []) tmp] := by
            simp [Getter.trydownload, hru, htn, hhg, hst]
          rw [htd]
          intro s hs
          simp only [List.mem_cons, List.not_mem_nil, or_false] at hs
          refine hfs0 s ?_
          rcases hs with h | h <;> rw [h]
          · exact hw1 []
          · exact (if_neg hO).trans (hw1 [])

/-- Witness for `output_never_partial` at a concrete successful download over
an initially absent output file. -/
theorem output_never_partial_wit :
    ((∀ s, envOkDl.tempName = .ok s → s ≠ gOut.Output) ∧
      (∀ v, fsEmpty gOut.Output = some v → gOut.MinimumSize ≤ (v.length : Int))) ∧
    (∀ s ∈ (gOut.trydownload envOkDl fsEmpty).states,
      (s gOut.Output = fsEmpty gOut.Output ∨
        ∃ resp, envOkDl.httpGet = .ok resp ∧ s gOut.Output = some resp.body ∧
          gOut.MinimumSize ≤ (resp.body.length : Int)) ∧
      ∀ v, s gOut.Output = some v → gOut.MinimumSize ≤ (v.length : Int)) :=
  ⟨⟨fun s h => by injection h with h2; rw [← h2]; decide,
      fun v hv => by simp [fsEmpty] at hv⟩,
    output_never_partial gOut envOkDl fsEmpty
      (fun s h => by injection h with h2; rw [← h2]; decide)
      (fun v hv => by simp [fsEmpty] at hv)⟩

/-! ## Failure-streak lemmas -/

theorem goSub_eval {t u : GoTime} (h1 : int64Min ≤ t.ns - u.ns)
    (h2 : t.ns - u.ns ≤ int64Max) : goSub t u = t.ns - u.ns := by
  unfold goSub
  rw [min_eq_right h2, max_eq_right h1]

theorem goSub_self (t : GoTime) : goSub t t = 0 := by
  have := goSub_eval (t := t) (u := t)
  simp only [sub_self] at this
  exact this (by unfold int64Min; omega) (by unfold int64Max; omega)

theorem observe_ne {g : Getter} (h : g.failSince ≠ goZeroTime) (t : GoTime) :
    g.observe t true = (g, goSub t g.failSince) := by
  simp [Getter.observe, h]

theorem observeSeq_ne {g : Getter} (h : g.failSince ≠ goZeroTime) :
    ∀ ts : List GoTime,
      observeSeq g ts = ts.map (fun t => (g, goSub t g.failSince))
  | [] => rfl
  | t :: rest => by
    unfold observeSeq
    rw [observe_ne h t, List.map_cons]
    exact congrArg _ (observeSeq_ne h rest)

theorem getLastD_map_eq {α β : Type} (f : α → β) :
    ∀ (l : List α) (d : α), (l.map f).getLastD (f d) = f (l.getLastD d)
  | [], _ => rfl
  | a :: l, d => by
    rw [List.map_cons, List.getLastD_cons, List.getLastD_cons]
    exact getLastD_map_eq f l a

/-- C5: starting healthy (`failSince` unset), across a streak of consecutive
failing attempts at strictly increasing ticks `t1 :: rest`, `failSince` is
set exactly once — to `t1`, on the first failure — and keeps that value at
every later failing observation; the published failing-duration at the k-th
observation equals `now - failSince`, i.e. `tk - t1`, so the sequence of
published values is non-decreasing and ends at `tN - t1`; and the next
successful attempt clears `failSince` and publishes zero.  (Each failing
step is the failure branch of `download`'s reporting block, each tick within
the `int64`-representable range of `time.Now()`.) -/
theorem failing_streak_reporting (g : Getter) (t1 : GoTime)
    (rest : List GoTime) (tS : GoTime)
    (h0 : g.failSince = goZeroTime)
    (hrange : ∀ t ∈ t1 :: rest, 0 ≤ t.ns ∧ t.ns < 2 ^ 62)
    (hchain : (t1 :: rest).Chain' (fun a b => a.ns < b.ns)) :
    (∀ p ∈ observeSeq g (t1 :: rest), p.1.failSince = t1) ∧
    (observeSeq g (t1 :: rest)).map Prod.snd =
      (t1 :: rest).map (fun t => t.ns - t1.ns) ∧
    ((observeSeq g (t1 :: rest)).map Prod.snd).Pairwise (· ≤ ·) ∧
    ((observeSeq g (t1 :: rest)).map Prod.snd).getLastD 0 =
      ((t1 :: rest).getLastD t1).ns - t1.ns ∧
    (((observeSeq g (t1 :: rest)).getLastD (g, 0)).1.observe tS false).1.failSince
        = goZeroTime ∧
    (((observeSeq g (t1 :: rest)).getLastD (g, 0)).1.observe tS false).2 = 0 := by
  have ht1pos : 0 ≤ t1.ns ∧ t1.ns < 2 ^ 62 := hrange t1 (by simp)
  have ht1 : t1 ≠ goZeroTime := by
    intro h
    have h2 := ht1pos.1
    rw [h] at h2
    simp [goZeroTime] at h2
  have hfirst : g.observe t1 true = ({ g with failSince := t1 }, 0) := by
    simp [Getter.observe, h0, goSub_self]
  have hg1 : ({ g with failSince := t1 } : Getter).failSince ≠ goZeroTime := ht1
  have hseq : observeSeq g (t1 :: rest) =
      ({ g with failSince := t1 }, 0) ::
        rest.map (fun t => (({ g with failSince := t1 } : Getter), goSub t t1)) := by
    unfold observeSeq
    rw [hfirst]
    exact congrArg _ (observeSeq_ne hg1 rest)
  have hsubeval : ∀ t ∈ rest, goSub t t1 = t.ns - t1.ns := by
    intro t ht
    have hr := hrange t (List.mem_cons_of_mem _ ht)
    exact goSub_eval (by unfold int64Min; omega) (by unfold int64Max; omega)
  have hmap : (observeSeq g (t1 :: rest)).map Prod.snd =
      (t1 :: rest).map (fun t => t.ns - t1.ns) := by
    rw [hseq]
    simp only [List.map_cons, List.map_map]
    rw [sub_self]
    exact congrArg _ (List.map_congr_left fun t ht => hsubeval t ht)
  refine ⟨?_, hmap, ?_, ?_, ?_, ?_⟩
  · rw [hseq]
    intro p hp
    rcases List.mem_cons.1 hp with rfl | hp
    · rfl
    · obtain ⟨t, _, rfl⟩ := List.mem_map.1 hp
      rfl
  · rw [hmap]
    have hns : ((t1 :: rest).map GoTime.ns).Chain' (· < ·) :=
      (List.chain'_map GoTime.ns).2 hchain
    rw [List.chain'_iff_pairwise] at hns
    have hpair2 : ((t1 :: rest).map GoTime.ns).Pairwise
        (fun a b => a - t1.ns ≤ b - t1.ns) := hns.imp fun h => by omega
    have hgoal := (List.pairwise_map (f := fun n : Int => n - t1.ns)).2 hpair2
    rw [List.map_map] at hgoal
    exact hgoal
  · rw [hmap]
    have h0eq : (0 : Int) = t1.ns - t1.ns := (sub_self t1.ns).symm
    rw [h0eq, getLastD_map_eq (fun t : GoTime => t.ns - t1.ns) (t1 :: rest) t1]
  · rw [hseq]
    simp [Getter.observe]
  · rw [hseq]
    simp [Getter.observe]

/-- Tick times for the failure-streak witness. -/
def tick0 : GoTime := ⟨0, 0⟩

/-- Second failing tick. -/
def tick1 : GoTime := ⟨100, 0⟩

/-- Third failing tick. -/
def tick2 : GoTime := ⟨250, 0⟩

/-- The tick of the subsequent successful attempt. -/
def tickS : GoTime := ⟨300, 0⟩

/-- Witness for `failing_streak_reporting` on a concrete three-failure
streak. -/
theorem failing_streak_reporting_wit :
    (Getter.failSince {} = goZeroTime ∧
      (∀ t ∈ tick0 :: [tick1, tick2], 0 ≤ t.ns ∧ t.ns < 2 ^ 62) ∧
      (tick0 :: [tick1, tick2]).Chain' (fun a b => a.ns < b.ns)) ∧
    ((∀ p ∈ observeSeq {} (tick0 :: [tick1, tick2]), p.1.failSince = tick0) ∧
      (observeSeq {} (tick0 :: [tick1, tick2])).map Prod.snd =
        (tick0 :: [tick1, tick2]).map (fun t => t.ns - tick0.ns) ∧
      ((observeSeq {} (tick0 :: [tick1, tick2])).map Prod.snd).Pairwise (· ≤ ·) ∧
      ((observeSeq {} (tick0 :: [tick1, tick2])).map Prod.snd).getLastD 0 =
        ((tick0 :: [tick1, tick2]).getLastD tick0).ns - tick0.ns ∧
      (((observeSeq {} (tick0 :: [tick1, tick2])).getLastD ({}, 0)).1.observe
            tickS false).1.failSince = goZeroTime ∧
      (((observeSeq {} (tick0 :: [tick1, tick2])).getLastD ({}, 0)).1.observe
            tickS false).2 = 0) :=
  ⟨⟨rfl, by decide,
      by norm_num [List.chain'_cons, List.chain'_singleton, tick0, tick1, tick2]⟩,
    failing_streak_reporting {} tick0 [tick1, tick2] tickS rfl (by decide)
      (by norm_num [List.chain'_cons, List.chain'_singleton, tick0, tick1, tick2])⟩
